import Mathlib

/-!
Verification development for the shaderc-rs safe wrapper layer
(`shaderc-rs/src/lib.rs`): a shallow embedding of the error model, the
artifact accessors, and the include-callback bridge, with proofs of the
specified properties.  Byte buffers and Rust strings are modelled as
`List Nat` (their UTF-8 bytes); native handles are modelled by the values
the wrapper can observe through the `shaderc_*` accessors; Rust panics are
modelled as explicit outcomes.
-/

namespace Shaderc

/-- Bytes of an ASCII string literal: for ASCII-only text the UTF-8 bytes
coincide with the character codes.  Used to model the Rust string literals
(panic messages, appended notes) appearing in the wrapper. -/
def strBytes (s : String) : List Nat := s.data.map Char.toNat

/-- Whether a byte is a UTF-8 continuation byte (`0x80..=0xBF`). -/
def contByte (b : Nat) : Bool := decide (0x80 ≤ b ∧ b ≤ 0xBF)

/-- Width of a UTF-8 sequence determined by its first byte, `0` for a byte
that cannot start a sequence.  Mirrors the `UTF8_CHAR_WIDTH` table driving
Rust's `str::from_utf8` validation. -/
def utf8Width (b : Nat) : Nat :=
  if b ≤ 0x7F then 1
  else if 0xC2 ≤ b ∧ b ≤ 0xDF then 2
  else if 0xE0 ≤ b ∧ b ≤ 0xEF then 3
  else if 0xF0 ≤ b ∧ b ≤ 0xF4 then 4
  else 0

/-- Admissible second byte of a three-byte sequence headed by `first`
(ruling out overlong encodings and surrogates), exactly as in Rust's
`run_utf8_validation`. -/
def validSecond3 (first c : Nat) : Bool :=
  (first == 0xE0 && decide (0xA0 ≤ c ∧ c ≤ 0xBF)) ||
  (decide (0xE1 ≤ first ∧ first ≤ 0xEC) && contByte c) ||
  (first == 0xED && decide (0x80 ≤ c ∧ c ≤ 0x9F)) ||
  (decide (0xEE ≤ first ∧ first ≤ 0xEF) && contByte c)

/-- Admissible second byte of a four-byte sequence headed by `first`,
exactly as in Rust's `run_utf8_validation`. -/
def validSecond4 (first c : Nat) : Bool :=
  (first == 0xF0 && decide (0x90 ≤ c ∧ c ≤ 0xBF)) ||
  (decide (0xF1 ≤ first ∧ first ≤ 0xF3) && contByte c) ||
  (first == 0xF4 && decide (0x80 ≤ c ∧ c ≤ 0x8F))

/-- Model of `std::str::Utf8Error`: the index of the first byte of the
first invalid sequence, and (when the input was not merely truncated) the
length of that invalid sequence. -/
structure Utf8Error where
  valid_up_to : Nat
  error_len : Option Nat
  deriving DecidableEq, Repr

/-- Shift an already-produced validation outcome past `w` validated bytes,
accumulating the running byte index Rust tracks with its cursor. -/
def shiftErr (w : Nat) : Except Utf8Error Unit → Except Utf8Error Unit
  | .ok () => .ok ()
  | .error e => .error ⟨e.valid_up_to + w, e.error_len⟩

/-- Model of Rust's `run_utf8_validation` over a byte list: `.ok` when the
whole list is valid UTF-8, otherwise the exact error Rust reports (the
index where the first invalid sequence starts, and its length, or `none`
when the input ends in the middle of a sequence). -/
def runUtf8Validation : List Nat → Except Utf8Error Unit
  | [] => .ok ()
  | b :: rest =>
    if utf8Width b = 1 then shiftErr 1 (runUtf8Validation rest)
    else if utf8Width b = 2 then
      match rest with
      | [] => .error ⟨0, none⟩
      | c :: rest2 =>
        if contByte c then shiftErr 2 (runUtf8Validation rest2)
        else .error ⟨0, some 1⟩
    else if utf8Width b = 3 then
      match rest with
      | [] => .error ⟨0, none⟩
      | c :: rest2 =>
        if validSecond3 b c then
          match rest2 with
          | [] => .error ⟨0, none⟩
          | d :: rest3 =>
            if contByte d then shiftErr 3 (runUtf8Validation rest3)
            else .error ⟨0, some 2⟩
        else .error ⟨0, some 1⟩
    else if utf8Width b = 4 then
      match rest with
      | [] => .error ⟨0, none⟩
      | c :: rest2 =>
        if validSecond4 b c then
          match rest2 with
          | [] => .error ⟨0, none⟩
          | d :: rest3 =>
            if contByte d then
              match rest3 with
              | [] => .error ⟨0, none⟩
              | d2 :: rest4 =>
                if contByte d2 then shiftErr 4 (runUtf8Validation rest4)
                else .error ⟨0, some 3⟩
            else .error ⟨0, some 2⟩
        else .error ⟨0, some 1⟩
    else .error ⟨0, some 1⟩

/-- Model of `str::from_utf8`: a `&str` is its bytes, so a successful
validation returns the bytes unchanged; otherwise the `Utf8Error`. -/
def str_from_utf8 (bytes : List Nat) : Except Utf8Error (List Nat) :=
  match runUtf8Validation bytes with
  | .ok () => .ok bytes
  | .error e => .error e

/-- Decimal representation of a natural number as ASCII bytes (the
`Display` of `usize` values interpolated into messages). -/
def natBytes (n : Nat) : List Nat := (Nat.repr n).data.map Char.toNat

/-- The `Display` text of `std::str::Utf8Error`, as interpolated by the
wrapper's fallback branch `format!("invalid UTF-8 string: {err}")`. -/
def utf8ErrorDisplay (e : Utf8Error) : List Nat :=
  match e.error_len with
  | some n =>
    strBytes "invalid utf-8 sequence of " ++ natBytes n ++
      strBytes " bytes from index " ++ natBytes e.valid_up_to
  | none =>
    strBytes "incomplete utf-8 byte sequence from index " ++ natBytes e.valid_up_to

theorem runUtf8Validation_nil : runUtf8Validation [] = .ok () := by
  rw [runUtf8Validation.eq_def]

theorem shiftErr_eq_error {w : Nat} {r : Except Utf8Error Unit} {e : Utf8Error}
    (h : shiftErr w r = .error e) :
    ∃ e', r = .error e' ∧ e = ⟨e'.valid_up_to + w, e'.error_len⟩ := by
  cases r with
  | ok u => cases u; simp [shiftErr] at h
  | error e' =>
    have h' : (Except.error ⟨e'.valid_up_to + w, e'.error_len⟩ : Except Utf8Error Unit)
        = .error e := h
    exact ⟨e', rfl, (Except.error.inj h').symm⟩

/-- Combined facts about a validation error: the reported index is below
the input length, the prefix up to the reported index revalidates
successfully, and any reported invalid-sequence length is at least one. -/
theorem runUtf8Validation_error_facts :
    ∀ {bytes : List Nat} {e : Utf8Error}, runUtf8Validation bytes = .error e →
      e.valid_up_to < bytes.length ∧
      runUtf8Validation (bytes.take e.valid_up_to) = .ok () ∧
      (∀ n, e.error_len = some n → 1 ≤ n) := by
  intro bytes
  induction bytes using runUtf8Validation.induct
  case case1 =>
    intro e h
    rw [runUtf8Validation_nil] at h
    exact absurd h (by simp)
  case case2 b rest hw ih =>
    intro e h
    rw [runUtf8Validation.eq_def] at h
    simp only [hw, reduceIte] at h
    obtain ⟨e', he', rfl⟩ := shiftErr_eq_error h
    obtain ⟨ih1, ih2, ih3⟩ := ih he'
    refine ⟨?_, ?_, ih3⟩
    · show e'.valid_up_to + 1 < (b :: rest).length
      simp only [List.length_cons]
      omega
    · show runUtf8Validation ((b :: rest).take (e'.valid_up_to + 1)) = .ok ()
      have ht : (b :: rest).take (e'.valid_up_to + 1) = b :: rest.take e'.valid_up_to := rfl
      rw [ht, runUtf8Validation.eq_def]
      simp [hw, ih2, shiftErr]
  case case4 b hn1 hw c rest2 hc ih =>
    intro e h
    rw [runUtf8Validation.eq_def] at h
    simp [hn1, hw, hc] at h
    obtain ⟨e', he', rfl⟩ := shiftErr_eq_error h
    obtain ⟨ih1, ih2, ih3⟩ := ih he'
    refine ⟨?_, ?_, ih3⟩
    · show e'.valid_up_to + 2 < (b :: c :: rest2).length
      simp only [List.length_cons]
      omega
    · show runUtf8Validation ((b :: c :: rest2).take (e'.valid_up_to + 2)) = .ok ()
      have ht : (b :: c :: rest2).take (e'.valid_up_to + 2)
          = b :: c :: rest2.take e'.valid_up_to := rfl
      rw [ht, runUtf8Validation.eq_def]
      simp [hn1, hw, hc, ih2, shiftErr]
  case case8 b hn1 hn2 hw c hv d rest3 hc ih =>
    intro e h
    rw [runUtf8Validation.eq_def] at h
    simp [hn1, hn2, hw, hv, hc] at h
    obtain ⟨e', he', rfl⟩ := shiftErr_eq_error h
    obtain ⟨ih1, ih2, ih3⟩ := ih he'
    refine ⟨?_, ?_, ih3⟩
    · show e'.valid_up_to + 3 < (b :: c :: d :: rest3).length
      simp only [List.length_cons]
      omega
    · show runUtf8Validation ((b :: c :: d :: rest3).take (e'.valid_up_to + 3)) = .ok ()
      have ht : (b :: c :: d :: rest3).take (e'.valid_up_to + 3)
          = b :: c :: d :: rest3.take e'.valid_up_to := rfl
      rw [ht, runUtf8Validation.eq_def]
      simp [hn1, hn2, hw, hv, hc, ih2, shiftErr]
  case case14 b hn1 hn2 hn3 hw c hv d hc1 d2 rest4 hc2 ih =>
    intro e h
    rw [runUtf8Validation.eq_def] at h
    simp [hn1, hn2, hn3, hw, hv, hc1, hc2] at h
    obtain ⟨e', he', rfl⟩ := shiftErr_eq_error h
    obtain ⟨ih1, ih2, ih3⟩ := ih he'
    refine ⟨?_, ?_, ih3⟩
    · show e'.valid_up_to + 4 < (b :: c :: d :: d2 :: rest4).length
      simp only [List.length_cons]
      omega
    · show runUtf8Validation ((b :: c :: d :: d2 :: rest4).take (e'.valid_up_to + 4)) = .ok ()
      have ht : (b :: c :: d :: d2 :: rest4).take (e'.valid_up_to + 4)
          = b :: c :: d :: d2 :: rest4.take e'.valid_up_to := rfl
      rw [ht, runUtf8Validation.eq_def]
      simp [hn1, hn2, hn3, hw, hv, hc1, hc2, ih2, shiftErr]
  all_goals
    intro e h
    rw [runUtf8Validation.eq_def] at h
    simp [*] at h
    subst h
    refine ⟨by simp, by simp [runUtf8Validation_nil], by intro n hn; simp at hn; try omega⟩

/-- Model of the wrapper's `safe_str_from_utf8`: decode valid UTF-8 bytes
unchanged; on invalid input with a non-empty valid prefix, recurse on that
prefix and append the note about dropped bytes; otherwise fall back to a
description of the decode error.  Total by construction (the recursion is
on the strictly shorter valid prefix), so extraction never aborts. -/
def safe_str_from_utf8 (bytes : List Nat) : List Nat :=
  match hv : str_from_utf8 bytes with
  | .ok s => s
  | .error err =>
    if 0 < err.valid_up_to then
      safe_str_from_utf8 (bytes.take err.valid_up_to) ++
        strBytes " (followed by invalid UTF-8 characters)"
    else
      strBytes "invalid UTF-8 string: " ++ utf8ErrorDisplay err
termination_by bytes.length
decreasing_by
  have hrun : runUtf8Validation bytes = .error err := by
    simp only [str_from_utf8] at hv
    cases hr : runUtf8Validation bytes with
    | ok u =>
      cases u
      rw [hr] at hv
      exact absurd hv (by simp)
    | error e2 =>
      rw [hr] at hv
      have h2 : (Except.error e2 : Except Utf8Error (List Nat)) = .error err := hv
      rw [← Except.error.inj h2]
  have hlt := (runUtf8Validation_error_facts hrun).1
  have hlen : (List.take err.valid_up_to bytes).length = err.valid_up_to := by
    rw [List.length_take]
    omega
  omega

theorem safe_str_from_utf8_valid (bytes : List Nat)
    (h : runUtf8Validation bytes = .ok ()) : safe_str_from_utf8 bytes = bytes := by
  rw [safe_str_from_utf8.eq_def]
  split
  next s heq =>
    simp only [str_from_utf8, h] at heq
    exact (Except.ok.inj heq).symm
  next err heq =>
    simp only [str_from_utf8, h] at heq
    exact absurd heq (by simp)

/-- C4: diagnostic-message extraction is total: on valid UTF-8 it returns
the bytes decoded unchanged; on invalid input with a non-empty valid
prefix it returns exactly that longest valid prefix followed by the note
about trailing invalid bytes; and even with no valid prefix it still
returns a message rather than aborting. -/
theorem safe_str_from_utf8_spec (bytes : List Nat) :
    (runUtf8Validation bytes = .ok () → safe_str_from_utf8 bytes = bytes) ∧
    (∀ e, runUtf8Validation bytes = .error e → 0 < e.valid_up_to →
      safe_str_from_utf8 bytes =
        bytes.take e.valid_up_to ++ strBytes " (followed by invalid UTF-8 characters)") ∧
    (∀ e, runUtf8Validation bytes = .error e → e.valid_up_to = 0 →
      safe_str_from_utf8 bytes = strBytes "invalid UTF-8 string: " ++ utf8ErrorDisplay e) := by
  refine ⟨safe_str_from_utf8_valid bytes, ?_, ?_⟩
  · intro e he hpos
    rw [safe_str_from_utf8.eq_def]
    split
    next s heq =>
      simp only [str_from_utf8, he] at heq
      exact absurd heq (by simp)
    next err heq =>
      simp only [str_from_utf8, he] at heq
      obtain rfl : e = err := Except.error.inj heq
      rw [if_pos hpos]
      have hok := (runUtf8Validation_error_facts he).2.1
      rw [safe_str_from_utf8_valid _ hok]
  · intro e he h0
    rw [safe_str_from_utf8.eq_def]
    split
    next s heq =>
      simp only [str_from_utf8, he] at heq
      exact absurd heq (by simp)
    next err heq =>
      simp only [str_from_utf8, he] at heq
      obtain rfl : e = err := Except.error.inj heq
      rw [if_neg (by omega)]

/-- C4 witness: the bytes `68 69 C0` have the valid prefix `"hi"` followed
by an invalid byte, and extraction appends the note to that prefix. -/
theorem safe_str_from_utf8_spec_witness :
    safe_str_from_utf8 [104, 105, 192] =
      [104, 105] ++ strBytes " (followed by invalid UTF-8 characters)" := by
  have h := (safe_str_from_utf8_spec [104, 105, 192]).2.1 ⟨2, some 1⟩ (by rfl) (by decide)
  simpa using h

/-- The wrapper's closed error type (the shaderc-rs `Error` enum);
diagnostic strings are UTF-8 byte lists. -/
inductive Error where
  | CompilationError (num_errors : Nat) (reason : List Nat)
  | InternalError (reason : List Nat)
  | InvalidStage (reason : List Nat)
  | InvalidAssembly (reason : List Nat)
  | NullResultObject (reason : List Nat)
  deriving DecidableEq, Repr

/-- Model of the native compilation-result handle: the values the wrapper
can read from it through the `shaderc_result_*` accessors.  `status` is
the `i32` from `shaderc_result_get_compilation_status`; `num_errors` and
`num_warnings` are `size_t` counts; `error_message` is the byte buffer
behind `shaderc_result_get_error_message` (read up to its terminator);
`output` is the payload behind `shaderc_result_get_bytes`, whose length is
what `shaderc_result_get_length` reports. -/
structure NativeCompilationResult where
  status : Int
  num_errors : Nat
  num_warnings : Nat
  error_message : List Nat
  output : List Nat
  deriving DecidableEq, Repr

/-- Reading through `CStr::from_ptr(p).to_bytes()`: the bytes strictly
before the first NUL terminator. -/
def cstrBytes (l : List Nat) : List Nat := l.takeWhile (fun b => b != 0)

/-- Model of `CompilationArtifact`: one native result handle plus the
binary/text tag recorded at construction. -/
structure CompilationArtifact where
  raw : NativeCompilationResult
  is_binary : Bool
  deriving DecidableEq, Repr

/-- Outcome of the status-classification step: a returned artifact, a
returned typed error, or a Rust `panic!` (with its message bytes). -/
inductive CompilationOutcome where
  | ok (artifact : CompilationArtifact)
  | err (e : Error)
  | fatal (msg : List Nat)
  deriving DecidableEq, Repr

/-- Model of `Compiler::handle_compilation_result`: status `0` wraps the
result handle in an artifact; statuses `1..=5` produce the typed error
variants, with `num_errors` truncated to `u32` and the message recovered
by `safe_str_from_utf8`; any other status is a `panic!`. -/
def handle_compilation_result (result : NativeCompilationResult) (is_binary : Bool) :
    CompilationOutcome :=
  if result.status = 0 then
    .ok ⟨result, is_binary⟩
  else
    let num_errors := result.num_errors % 2 ^ 32
    let reason := safe_str_from_utf8 (cstrBytes result.error_message)
    if result.status = 1 then .err (.InvalidStage reason)
    else if result.status = 2 then .err (.CompilationError num_errors reason)
    else if result.status = 3 then .err (.InternalError reason)
    else if result.status = 4 then .err (.NullResultObject reason)
    else if result.status = 5 then .err (.InvalidAssembly reason)
    else .fatal (strBytes "unhandled shaderc error case")

/-- C3: the wrapper's classification of the native status code is exactly:
0 returns Ok with an artifact wrapping the result handle; 1 InvalidStage;
2 CompilationError with the error count; 3 InternalError;
4 NullResultObject; 5 InvalidAssembly; any other status panics and is
never returned as a recoverable error. -/
theorem handle_compilation_result_spec (r : NativeCompilationResult) (b : Bool) :
    (r.status = 0 → handle_compilation_result r b = .ok ⟨r, b⟩) ∧
    (r.status = 1 → handle_compilation_result r b =
      .err (.InvalidStage (safe_str_from_utf8 (cstrBytes r.error_message)))) ∧
    (r.status = 2 → handle_compilation_result r b =
      .err (.CompilationError (r.num_errors % 2 ^ 32)
        (safe_str_from_utf8 (cstrBytes r.error_message)))) ∧
    (r.status = 3 → handle_compilation_result r b =
      .err (.InternalError (safe_str_from_utf8 (cstrBytes r.error_message)))) ∧
    (r.status = 4 → handle_compilation_result r b =
      .err (.NullResultObject (safe_str_from_utf8 (cstrBytes r.error_message)))) ∧
    (r.status = 5 → handle_compilation_result r b =
      .err (.InvalidAssembly (safe_str_from_utf8 (cstrBytes r.error_message)))) ∧
    (r.status ≠ 0 → r.status ≠ 1 → r.status ≠ 2 → r.status ≠ 3 → r.status ≠ 4 →
      r.status ≠ 5 →
      handle_compilation_result r b = .fatal (strBytes "unhandled shaderc error case")) := by
  unfold handle_compilation_result
  refine ⟨?_, ?_, ?_, ?_, ?_, ?_, ?_⟩ <;> intro h
  · simp [h]
  · simp [h]
  · simp [h]
  · simp [h]
  · simp [h]
  · simp [h]
  · intro h1 h2 h3 h4 h5
    simp [h, h1, h2, h3, h4, h5]

/-- C3 witness: concrete classifications at statuses 2 (CompilationError
with the truncated error count), 0 (success) and 7 (fatal). -/
theorem handle_compilation_result_spec_witness :
    handle_compilation_result ⟨2, 7, 0, [], []⟩ true =
      .err (.CompilationError (7 % 2 ^ 32) (safe_str_from_utf8 (cstrBytes []))) ∧
    handle_compilation_result ⟨0, 0, 0, [], []⟩ true = .ok ⟨⟨0, 0, 0, [], []⟩, true⟩ ∧
    handle_compilation_result ⟨7, 0, 0, [], []⟩ false =
      .fatal (strBytes "unhandled shaderc error case") := by
  refine ⟨?_, ?_, ?_⟩
  · exact (handle_compilation_result_spec ⟨2, 7, 0, [], []⟩ true).2.2.1 rfl
  · exact (handle_compilation_result_spec ⟨0, 0, 0, [], []⟩ true).1 rfl
  · exact (handle_compilation_result_spec ⟨7, 0, 0, [], []⟩ false).2.2.2.2.2.2
      (by decide) (by decide) (by decide) (by decide) (by decide) (by decide)

/-- `CompilationArtifact::len`: the byte length of the output payload
(`shaderc_result_get_length`). -/
def len (a : CompilationArtifact) : Nat := a.raw.output.length

/-- `CompilationArtifact::is_empty`: whether the payload length is zero. -/
def is_empty (a : CompilationArtifact) : Bool := len a == 0

/-- The little-endian reinterpretation of a byte sequence as 32-bit words:
the view `slice::from_raw_parts(p as *const u32, len / 4)` takes of the
byte buffer on a little-endian host. -/
def bytesToWords : List Nat → List Nat
  | b0 :: b1 :: b2 :: b3 :: rest =>
    (b0 + b1 * 256 + b2 * 65536 + b3 * 16777216) :: bytesToWords rest
  | _ => []

theorem bytesToWords_length :
    ∀ (l : List Nat), l.length % 4 = 0 → (bytesToWords l).length * 4 = l.length
  | [] => by intro h; simp [bytesToWords]
  | [a] => by intro h; simp at h
  | [a, b] => by intro h; simp at h
  | [a, b, c] => by intro h; simp at h
  | a :: b :: c :: d :: rest => by
    intro h
    simp only [List.length_cons] at h
    have hr : rest.length % 4 = 0 := by omega
    have ih := bytesToWords_length rest hr
    simp only [bytesToWords, List.length_cons]
    omega

/-- Model of `CompilationArtifact::as_binary`: panics (modelled as
`.error` with the panic message) on a text-tagged artifact, then asserts
the byte length is a multiple of four, then reinterprets the buffer as
`len / 4` words without copying. -/
def as_binary (a : CompilationArtifact) : Except (List Nat) (List Nat) :=
  if !a.is_binary then .error (strBytes "not binary result")
  else if len a % 4 ≠ 0 then .error (strBytes "assertion failed: 0 == self.len() % 4")
  else .ok (bytesToWords a.raw.output)

/-- Model of `CompilationArtifact::as_binary_u8`: same tag check and
length assertion as `as_binary`, returning the raw byte view. -/
def as_binary_u8 (a : CompilationArtifact) : Except (List Nat) (List Nat) :=
  if !a.is_binary then .error (strBytes "not binary result")
  else if len a % 4 ≠ 0 then .error (strBytes "assertion failed: 0 == self.len() % 4")
  else .ok a.raw.output

/-- Model of `CompilationArtifact::as_text`: panics on a binary-tagged
artifact, reads the payload as a C string and applies the strict
`str::from_utf8`, whose failure is an `expect` panic, not a recovery. -/
def as_text (a : CompilationArtifact) : Except (List Nat) (List Nat) :=
  if a.is_binary then .error (strBytes "not text result")
  else
    match str_from_utf8 (cstrBytes a.raw.output) with
    | .ok s => .ok s
    | .error _ => .error (strBytes "invalid utf-8 string")

/-- Model of `CompilationArtifact::get_num_warnings`: the native `size_t`
warning count truncated by the `as u32` cast. -/
def get_num_warnings (a : CompilationArtifact) : Nat := a.raw.num_warnings % 2 ^ 32

/-- Model of `CompilationArtifact::get_warning_messages`: the message
buffer read as a C string and recovered with `safe_str_from_utf8`. -/
def get_warning_messages (a : CompilationArtifact) : List Nat :=
  safe_str_from_utf8 (cstrBytes a.raw.error_message)

/-- C6: on a binary-tagged artifact whose byte length is a multiple of
four, `as_binary` returns exactly `len / 4` words, so the word count times
four equals `len`; when the length is not a multiple of four the assertion
fails (a panic), never a silent truncation. -/
theorem as_binary_word_length_spec (a : CompilationArtifact) (hb : a.is_binary = true) :
    (len a % 4 = 0 →
      as_binary a = .ok (bytesToWords a.raw.output) ∧
      (bytesToWords a.raw.output).length * 4 = len a) ∧
    (len a % 4 ≠ 0 →
      as_binary a = .error (strBytes "assertion failed: 0 == self.len() % 4")) := by
  constructor
  · intro h4
    exact ⟨by simp [as_binary, hb, h4], bytesToWords_length _ h4⟩
  · intro h4
    simp [as_binary, hb, h4]

/-- C6 witness: a four-byte binary artifact yields one word, and a
five-byte binary artifact trips the assertion. -/
theorem as_binary_word_length_spec_witness :
    (as_binary ⟨⟨0, 0, 0, [], [1, 0, 0, 0]⟩, true⟩ =
        .ok (bytesToWords [1, 0, 0, 0]) ∧
      (bytesToWords [1, 0, 0, 0]).length * 4 = len ⟨⟨0, 0, 0, [], [1, 0, 0, 0]⟩, true⟩) ∧
    as_binary ⟨⟨0, 0, 0, [], [1, 0, 0, 0, 9]⟩, true⟩ =
      .error (strBytes "assertion failed: 0 == self.len() % 4") := by
  constructor
  · exact (as_binary_word_length_spec ⟨⟨0, 0, 0, [], [1, 0, 0, 0]⟩, true⟩ rfl).1 (by decide)
  · exact (as_binary_word_length_spec ⟨⟨0, 0, 0, [], [1, 0, 0, 0, 9]⟩, true⟩ rfl).2 (by decide)

/-- C7: accessor validity is gated by the binary/text tag: both binary
accessors panic on a text-tagged artifact, `as_text` panics on a
binary-tagged artifact, and the warning accessors are plain functions of
the native handle, callable under either tag. -/
theorem accessor_tag_spec (r : NativeCompilationResult) :
    as_binary ⟨r, false⟩ = .error (strBytes "not binary result") ∧
    as_binary_u8 ⟨r, false⟩ = .error (strBytes "not binary result") ∧
    as_text ⟨r, true⟩ = .error (strBytes "not text result") ∧
    (∀ b, get_num_warnings ⟨r, b⟩ = r.num_warnings % 2 ^ 32) ∧
    (∀ b, get_warning_messages ⟨r, b⟩ = safe_str_from_utf8 (cstrBytes r.error_message)) := by
  refine ⟨by simp [as_binary], by simp [as_binary_u8], by simp [as_text], ?_, ?_⟩
  · intro b; rfl
  · intro b; rfl

/-- C10: `as_text` applies the strict UTF-8 check and panics on invalid
payload bytes, while the lossy `safe_str_from_utf8` recovery is reserved
for diagnostics: warning extraction and error classification. -/
theorem as_text_strict_utf8_spec (r : NativeCompilationResult) (b : Bool) :
    (∀ e, str_from_utf8 (cstrBytes r.output) = .error e →
      as_text ⟨r, false⟩ = .error (strBytes "invalid utf-8 string")) ∧
    (∀ s, str_from_utf8 (cstrBytes r.output) = .ok s → as_text ⟨r, false⟩ = .ok s) ∧
    get_warning_messages ⟨r, b⟩ = safe_str_from_utf8 (cstrBytes r.error_message) ∧
    (r.status = 3 → handle_compilation_result r b =
      .err (.InternalError (safe_str_from_utf8 (cstrBytes r.error_message)))) := by
  refine ⟨?_, ?_, rfl, ?_⟩
  · intro e he
    simp [as_text, he]
  · intro s hs
    simp [as_text, hs]
  · intro h3
    simp [handle_compilation_result, h3]

/-- C10 witness: a text artifact whose payload byte `0xFF` is invalid
UTF-8 makes `as_text` panic with the expect message. -/
theorem as_text_strict_utf8_spec_witness :
    as_text ⟨⟨0, 0, 0, [], [255]⟩, false⟩ = .error (strBytes "invalid utf-8 string") := by
  exact (as_text_strict_utf8_spec ⟨0, 0, 0, [], [255]⟩ false).1 ⟨0, some 1⟩ (by rfl)

/-- Model of `String::from_utf8_lossy`: valid input passes through;
each maximal invalid subsequence (the `error_len` the validator reports,
or the incomplete trailing sequence) is replaced by U+FFFD, whose UTF-8
bytes are `EF BF BD`. -/
def toStringLossy (bytes : List Nat) : List Nat :=
  match hv : runUtf8Validation bytes with
  | .ok _ => bytes
  | .error e =>
    match he : e.error_len with
    | some n =>
      bytes.take e.valid_up_to ++ [0xEF, 0xBF, 0xBD] ++
        toStringLossy (bytes.drop (e.valid_up_to + n))
    | none => bytes.take e.valid_up_to ++ [0xEF, 0xBF, 0xBD]
termination_by bytes.length
decreasing_by
  have hfacts := runUtf8Validation_error_facts hv
  have h1 := hfacts.1
  have hn := hfacts.2.2 n he
  rw [List.length_drop]
  omega

/-- Include type tag as decoded from the native `c_int`. -/
inductive IncludeType where
  | Relative
  | Standard
  deriving DecidableEq, Repr

/-- A successfully resolved include as returned by the user callback:
owned name and content strings (byte lists). -/
structure ResolvedInclude where
  resolved_name : List Nat
  content : List Nat
  deriving DecidableEq, Repr

/-- What one invocation of the user-supplied include callback does:
return `Ok`, return `Err`, or panic with a payload of type `P`. -/
inductive CallbackBehavior (P : Type) where
  | ok (r : ResolvedInclude)
  | err (msg : List Nat)
  | panics (payload : P)
  deriving DecidableEq

/-- A panic payload crossing the bridge: either the user callback's own
payload (`Box<dyn Any + Send>`) or the message of a `panic!` raised inside
the resolver trampoline itself. -/
inductive Payload (P : Type) where
  | user (p : P)
  | internal (msg : List Nat)
  deriving DecidableEq

/-- The include callback capability: requested name, include type,
requesting name, include depth. -/
abbrev Callback (P : Type) : Type :=
  List Nat → IncludeType → List Nat → Nat → CallbackBehavior P

/-- The dynamic type of the heap envelope the resolver allocated, i.e.
what the `user_data` pointer of a `shaderc_include_result` points to. -/
inductive WrapperShape where
  | okWrapper
  | errWrapper
  deriving DecidableEq, Repr

/-- A `shaderc_include_result` descriptor together with the wrapper type
that owns it: the name/content buffers and their recorded lengths. -/
structure IncludeResultEnvelope where
  source_name : List Nat
  source_name_length : Nat
  content : List Nat
  content_length : Nat
  shape : WrapperShape
  deriving DecidableEq, Repr

/-- `CString::new` fails (and the wrapper's `expect` panics) exactly when
the bytes contain an interior NUL. -/
def containsNul (l : List Nat) : Bool := l.contains 0

/-- The body of the resolver trampoline inside `catch_unwind`: decode the
requested name, decode the include-type tag (0 relative, 1 standard,
anything else is a `panic!`), decode the requesting name, invoke the
callback, and build the envelope; `.error` is an unwind with that
payload.  On success the resolved name must be non-empty and both strings
NUL-free; on callback failure the envelope signals the error with a
zero-length source name and the message in the content field. -/
def resolverBody {P : Type} (f : Callback P) (requested_source : List Nat) (type_tag : Int)
    (requesting_source : List Nat) (include_depth : Nat) :
    Except (Payload P) IncludeResultEnvelope :=
  if type_tag = 0 ∨ type_tag = 1 then
    match f (toStringLossy (cstrBytes requested_source))
        (if type_tag = 0 then .Relative else .Standard)
        (toStringLossy (cstrBytes requesting_source)) include_depth with
    | .panics p => .error (.user p)
    | .ok r =>
      if r.resolved_name.isEmpty then
        .error (.internal (strBytes
          "include callback: empty strings for resolved include names not allowed"))
      else if containsNul r.resolved_name then
        .error (.internal (strBytes
          "include callback: could not convert resolved source name to a c string"))
      else if containsNul r.content then
        .error (.internal (strBytes
          "include callback: could not convert content string to a c string"))
      else
        .ok ⟨r.resolved_name, r.resolved_name.length, r.content, r.content.length, .okWrapper⟩
    | .err error_message =>
      if containsNul error_message then
        .error (.internal (strBytes
          "include callback: could not convert error message to a c string"))
      else
        .ok ⟨[], 0, error_message, error_message.length, .errWrapper⟩
  else
    .error (.internal (strBytes
      "include callback: unknown include type returned from libshaderc"))

/-- The placeholder envelope fabricated after a caught panic: zero-length
source name and zero-length content, owned by an `ErrResultWrapper`. -/
def panicPlaceholder : IncludeResultEnvelope := ⟨[], 0, [], 0, .errWrapper⟩

/-- The resolver trampoline: `catch_unwind` around `resolverBody`.  On an
unwind the payload is stored in the thread-local `PANIC_ERROR` cell and
the placeholder envelope is returned so the native call can continue. -/
def resolver {P : Type} (f : Callback P) (requested_source : List Nat) (type_tag : Int)
    (requesting_source : List Nat) (include_depth : Nat)
    (panic_error : Option (Payload P)) :
    IncludeResultEnvelope × Option (Payload P) :=
  match resolverBody f requested_source type_tag requesting_source include_depth with
  | .ok r => (r, panic_error)
  | .error e => (panicPlaceholder, some e)

/-- The releaser trampoline's reconstruction of the wrapper type from the
descriptor alone: a zero-length source name means `ErrResultWrapper`,
anything else `OkResultWrapper`. -/
def releaserShape (r : IncludeResultEnvelope) : WrapperShape :=
  if r.source_name_length = 0 then .errWrapper else .okWrapper

theorem resolverBody_ok_shape {P : Type} {f : Callback P} {a : List Nat} {t : Int}
    {c : List Nat} {d : Nat} {r : IncludeResultEnvelope}
    (h : resolverBody f a t c d = .ok r) :
    (r.shape = .okWrapper →
      r.source_name_length = r.source_name.length ∧ 0 < r.source_name_length) ∧
    (r.shape = .errWrapper → r.source_name_length = 0 ∧ r.source_name = []) := by
  unfold resolverBody at h
  by_cases htag : t = 0 ∨ t = 1
  · rw [if_pos htag] at h
    rcases hf : f (toStringLossy (cstrBytes a))
        (if t = 0 then IncludeType.Relative else IncludeType.Standard)
        (toStringLossy (cstrBytes c)) d with rr | msg | p
    · simp only [hf] at h
      split_ifs at h with h1 h2 h3
      all_goals first
        | (simp at h; done)
        | (obtain rfl := Except.ok.inj h
           refine ⟨fun _ => ⟨rfl, ?_⟩, fun hsh => by simp at hsh⟩
           show 0 < rr.resolved_name.length
           have hne : rr.resolved_name ≠ [] := by
             intro hnil
             rw [hnil] at h1
             simp at h1
           exact List.length_pos.mpr hne)
    · simp only [hf] at h
      split_ifs at h with h1
      all_goals first
        | (simp at h; done)
        | (obtain rfl := Except.ok.inj h
           exact ⟨fun hsh => by simp at hsh, fun _ => ⟨rfl, rfl⟩⟩)
    · simp only [hf] at h
      exact absurd h (by simp)
  · rw [if_neg htag] at h
    exact absurd h (by simp)

/-- C2: every envelope the resolver hands to the native layer satisfies
the discriminant the releaser relies on: the releaser's zero-length-name
test reconstructs exactly the wrapper type the resolver allocated; a
success envelope records the resolved name's byte length, which is
strictly positive (an empty resolved name panics instead of building a
success envelope); error envelopes and the panic placeholder carry a
zero-length source name with the message in the content field. -/
theorem resolver_envelope_shape_spec {P : Type} (f : Callback P)
    (requested requesting : List Nat) (tag : Int) (depth : Nat)
    (st st' : Option (Payload P)) (r : IncludeResultEnvelope)
    (hres : resolver f requested tag requesting depth st = (r, st')) :
    releaserShape r = r.shape ∧
    (r.shape = .okWrapper →
      r.source_name_length = r.source_name.length ∧ 0 < r.source_name_length) ∧
    (r.shape = .errWrapper → r.source_name_length = 0) ∧
    (∀ content, (tag = 0 ∨ tag = 1) →
      f (toStringLossy (cstrBytes requested))
        (if tag = 0 then .Relative else .Standard)
        (toStringLossy (cstrBytes requesting)) depth = .ok ⟨[], content⟩ →
      r = panicPlaceholder ∧
        st' = some (.internal (strBytes
          "include callback: empty strings for resolved include names not allowed"))) ∧
    (∀ msg, (tag = 0 ∨ tag = 1) → containsNul msg = false →
      f (toStringLossy (cstrBytes requested))
        (if tag = 0 then .Relative else .Standard)
        (toStringLossy (cstrBytes requesting)) depth = .err msg →
      r = ⟨[], 0, msg, msg.length, .errWrapper⟩) := by
  have hshape :
      releaserShape r = r.shape ∧
      (r.shape = .okWrapper →
        r.source_name_length = r.source_name.length ∧ 0 < r.source_name_length) ∧
      (r.shape = .errWrapper → r.source_name_length = 0) := by
    unfold resolver at hres
    cases hb : resolverBody f requested tag requesting depth with
    | ok env =>
      rw [hb] at hres
      simp only [Prod.mk.injEq] at hres
      obtain ⟨rfl, rfl⟩ := hres
      have hfacts := resolverBody_ok_shape hb
      refine ⟨?_, hfacts.1, fun hsh => (hfacts.2 hsh).1⟩
      cases hsh : env.shape with
      | okWrapper =>
        have hpos := (hfacts.1 hsh).2
        simp only [releaserShape, hsh]
        rw [if_neg (by omega)]
      | errWrapper =>
        have h0 := (hfacts.2 hsh).1
        simp only [releaserShape, hsh]
        rw [if_pos h0]
    | error e =>
      rw [hb] at hres
      simp only [Prod.mk.injEq] at hres
      obtain ⟨rfl, rfl⟩ := hres
      exact ⟨by simp [releaserShape, panicPlaceholder],
        fun hsh => by simp [panicPlaceholder] at hsh,
        fun _ => by simp [panicPlaceholder]⟩
  refine ⟨hshape.1, hshape.2.1, hshape.2.2, ?_, ?_⟩
  · intro content htag hcall
    have hb : resolverBody f requested tag requesting depth =
        .error (.internal (strBytes
          "include callback: empty strings for resolved include names not allowed")) := by
      unfold resolverBody
      rw [if_pos htag, hcall]
      simp
    unfold resolver at hres
    rw [hb] at hres
    simp only [Prod.mk.injEq] at hres
    exact ⟨hres.1.symm, hres.2.symm⟩
  · intro msg htag hnul hcall
    have hb : resolverBody f requested tag requesting depth =
        .ok ⟨[], 0, msg, msg.length, .errWrapper⟩ := by
      unfold resolverBody
      rw [if_pos htag, hcall]
      simp [containsNul] at hnul
      simp [containsNul, hnul]
    unfold resolver at hres
    rw [hb] at hres
    simp only [Prod.mk.injEq] at hres
    exact hres.1.symm

/-- C2 witness: a callback returning the name `"a"` with content `"x"`
yields a success envelope with name length 1 that the releaser classifies
as `OkResultWrapper`; a callback returning an empty resolved name makes
the resolver panic and hand back the placeholder instead. -/
theorem resolver_envelope_shape_spec_witness :
    (releaserShape ⟨[97], 1, [120], 1, .okWrapper⟩ =
        (⟨[97], 1, [120], 1, .okWrapper⟩ : IncludeResultEnvelope).shape) ∧
    panicPlaceholder = panicPlaceholder := by
  constructor
  · exact (resolver_envelope_shape_spec (P := Nat)
      (fun _ _ _ _ => .ok ⟨[97], [120]⟩) [] [] 0 0 none none
      ⟨[97], 1, [120], 1, .okWrapper⟩ rfl).1
  · exact ((resolver_envelope_shape_spec (P := Nat)
      (fun _ _ _ _ => .ok ⟨[], [120]⟩) [] [] 0 0 none
      (some (.internal (strBytes
        "include callback: empty strings for resolved include names not allowed")))
      panicPlaceholder rfl).2.2.2.1 [120] (by left; rfl) rfl).1

/-- One include request the native library issues during a compile: the
raw values it passes to the resolver trampoline. -/
structure IncludeRequest where
  type_tag : Int
  requested_source : List Nat
  requesting_source : List Nat
  include_depth : Nat

/-- The native compile call re-entering the resolver once per request, in
order, threading the thread-local `PANIC_ERROR` cell: returns the
envelopes handed to the native layer and the final cell state. -/
def runResolvers {P : Type} (f : Callback P) :
    List IncludeRequest → Option (Payload P) →
    List IncludeResultEnvelope × Option (Payload P)
  | [], st => ([], st)
  | q :: qs, st =>
    let step := resolver f q.requested_source q.type_tag q.requesting_source q.include_depth st
    let rest := runResolvers f qs step.2
    (step.1 :: rest.1, rest.2)

/-- The body of a compile entry point's `propagate_panic` closure: the
native call (which re-enters the resolver for each request in `reqs` and
finally produces the native result `nres`) followed by
`handle_compilation_result`. -/
def compileBody {P : Type} (f : Callback P) (reqs : List IncludeRequest)
    (nres : NativeCompilationResult) (is_binary : Bool) (st : Option (Payload P)) :
    CompilationOutcome × Option (Payload P) :=
  (handle_compilation_result nres is_binary, (runResolvers f reqs st).2)

/-- What a compile entry point does overall: return `Ok`/`Err`, re-raise a
captured callback panic (`resume_unwind`), or itself `panic!`. -/
inductive EntryOutcome (P : Type) where
  | ret (r : Except Error CompilationArtifact)
  | panicked (p : Payload P)
  | fatal (msg : List Nat)

/-- Model of `propagate_panic`: the `PANIC_ERROR` cell is reset to `None`,
the body runs against the empty cell, and then any stored payload is
taken and re-raised.  A `panic!` arising in the body itself (`.fatal`)
unwinds before the take, leaving the cell as the body left it. -/
def propagate_panic {P : Type}
    (body : Option (Payload P) → CompilationOutcome × Option (Payload P))
    (st : Option (Payload P)) : EntryOutcome P × Option (Payload P) :=
  let run := body none
  match run.1 with
  | .fatal msg => (.fatal msg, run.2)
  | .ok a =>
    match run.2 with
    | some e => (.panicked e, none)
    | none => (.ret (.ok a), none)
  | .err e =>
    match run.2 with
    | some p => (.panicked p, none)
    | none => (.ret (.error e), none)

/-- The shared core of the four compile entry points: `propagate_panic`
wrapped around the native call and status classification.  `st` is the
`PANIC_ERROR` content left over on this thread before the call. -/
def compileEntry {P : Type} (f : Callback P) (reqs : List IncludeRequest)
    (nres : NativeCompilationResult) (is_binary : Bool) (st : Option (Payload P)) :
    EntryOutcome P × Option (Payload P) :=
  propagate_panic (compileBody f reqs nres is_binary) st

/-- The payload of the last resolver invocation in `reqs` that panicked,
if any: what `PANIC_ERROR` holds when the native call returns. -/
def lastPanic {P : Type} (f : Callback P) : List IncludeRequest → Option (Payload P)
  | [] => none
  | q :: qs =>
    match lastPanic f qs with
    | some p => some p
    | none =>
      match resolverBody f q.requested_source q.type_tag q.requesting_source q.include_depth with
      | .error p => some p
      | .ok _ => none

theorem runResolvers_state {P : Type} (f : Callback P) (reqs : List IncludeRequest)
    (st : Option (Payload P)) :
    (runResolvers f reqs st).2 =
      match lastPanic f reqs with
      | some p => some p
      | none => st := by
  induction reqs generalizing st with
  | nil => rfl
  | cons q qs ih =>
    simp only [runResolvers, lastPanic]
    rw [ih]
    cases hb : resolverBody f q.requested_source q.type_tag q.requesting_source
        q.include_depth with
    | ok env =>
      simp only [resolver, hb]
      cases lastPanic f qs <;> simp
    | error p =>
      simp only [resolver, hb]
      cases lastPanic f qs <;> simp

theorem handle_status_in_range {r : NativeCompilationResult} {b : Bool}
    (h0 : 0 ≤ r.status) (h5 : r.status ≤ 5) :
    (∃ a, handle_compilation_result r b = .ok a) ∨
    (∃ e, handle_compilation_result r b = .err e) := by
  have hc : r.status = 0 ∨ r.status = 1 ∨ r.status = 2 ∨ r.status = 3 ∨
      r.status = 4 ∨ r.status = 5 := by omega
  rcases hc with h | h | h | h | h | h <;>
    simp [handle_compilation_result, h]

/-- Model of `Compiler::compile_into_spirv`: the three `CString`
conversions, whose `expect` panics on an embedded NUL before any native
entry point is reached (the modelled panic message is the `expect` text),
then the native call under `propagate_panic`, classified as binary. -/
def compile_into_spirv {P : Type} (source_text input_file_name entry_point_name : List Nat)
    (f : Callback P) (reqs : List IncludeRequest) (nres : NativeCompilationResult)
    (st : Option (Payload P)) : EntryOutcome P × Option (Payload P) :=
  if containsNul source_text then
    (.fatal (strBytes "cannot convert source_text to c string"), st)
  else if containsNul input_file_name then
    (.fatal (strBytes "cannot convert input_file_name to c string"), st)
  else if containsNul entry_point_name then
    (.fatal (strBytes "cannot convert entry_point_name to c string"), st)
  else
    compileEntry f reqs nres true st

/-- Model of `Compiler::compile_into_spirv_assembly`: same conversions as
`compile_into_spirv`, classified as text. -/
def compile_into_spirv_assembly {P : Type}
    (source_text input_file_name entry_point_name : List Nat)
    (f : Callback P) (reqs : List IncludeRequest) (nres : NativeCompilationResult)
    (st : Option (Payload P)) : EntryOutcome P × Option (Payload P) :=
  if containsNul source_text then
    (.fatal (strBytes "cannot convert source_text to c string"), st)
  else if containsNul input_file_name then
    (.fatal (strBytes "cannot convert input_file_name to c string"), st)
  else if containsNul entry_point_name then
    (.fatal (strBytes "cannot convert entry_point_name to c string"), st)
  else
    compileEntry f reqs nres false st

/-- Model of `Compiler::preprocess`: same shape (a fixed placeholder stage
is passed natively), classified as text. -/
def preprocess {P : Type} (source_text input_file_name entry_point_name : List Nat)
    (f : Callback P) (reqs : List IncludeRequest) (nres : NativeCompilationResult)
    (st : Option (Payload P)) : EntryOutcome P × Option (Payload P) :=
  if containsNul source_text then
    (.fatal (strBytes "cannot convert source to c string"), st)
  else if containsNul input_file_name then
    (.fatal (strBytes "cannot convert input_file_name to c string"), st)
  else if containsNul entry_point_name then
    (.fatal (strBytes "cannot convert entry_point_name to c string"), st)
  else
    compileEntry f reqs nres false st

/-- Model of `Compiler::assemble`: one conversion, classified as binary. -/
def assemble {P : Type} (source_assembly : List Nat)
    (f : Callback P) (reqs : List IncludeRequest) (nres : NativeCompilationResult)
    (st : Option (Payload P)) : EntryOutcome P × Option (Payload P) :=
  if containsNul source_assembly then
    (.fatal (strBytes "cannot convert source_assembly to c string"), st)
  else
    compileEntry f reqs nres true st

/-- C1: a panicking include callback never unwinds through the native
frames: the resolver catches the unwind, stores the payload in the
thread-local cell and returns the placeholder envelope (zero-length name
and content) so the native call completes; afterwards the compile entry
point re-raises exactly the stored panic, so the call panics instead of
returning an `Ok` or `Err` result. -/
theorem panic_propagation_spec {P : Type} (f : Callback P) (reqs : List IncludeRequest)
    (nres : NativeCompilationResult) (b : Bool) (st : Option (Payload P)) :
    (∀ requested tag requesting depth st0 p,
      resolverBody f requested tag requesting depth = .error p →
      resolver f requested tag requesting depth st0 = (panicPlaceholder, some p)) ∧
    (panicPlaceholder.source_name_length = 0 ∧ panicPlaceholder.content_length = 0) ∧
    (∀ p, lastPanic f reqs = some p → 0 ≤ nres.status → nres.status ≤ 5 →
      compileEntry f reqs nres b st = (.panicked p, none)) ∧
    (∀ source file entry,
      containsNul source = false → containsNul file = false → containsNul entry = false →
      compile_into_spirv source file entry f reqs nres st = compileEntry f reqs nres true st ∧
      compile_into_spirv_assembly source file entry f reqs nres st =
        compileEntry f reqs nres false st ∧
      preprocess source file entry f reqs nres st = compileEntry f reqs nres false st) ∧
    (∀ source, containsNul source = false →
      assemble source f reqs nres st = compileEntry f reqs nres true st) := by
  refine ⟨?_, ⟨rfl, rfl⟩, ?_, ?_, ?_⟩
  · intro requested tag requesting depth st0 p h
    simp [resolver, h]
  · intro p hp h0 h5
    have hst : (runResolvers f reqs (none : Option (Payload P))).2 = some p := by
      rw [runResolvers_state]
      simp [hp]
    rcases handle_status_in_range (b := b) h0 h5 with ⟨a, ha⟩ | ⟨e, he⟩
    · simp [compileEntry, propagate_panic, compileBody, hst, ha]
    · simp [compileEntry, propagate_panic, compileBody, hst, he]
  · intro source file entry hs hf he
    exact ⟨by simp [compile_into_spirv, hs, hf, he],
      by simp [compile_into_spirv_assembly, hs, hf, he],
      by simp [preprocess, hs, hf, he]⟩
  · intro source hs
    simp [assemble, hs]

/-- C1 witness: with a callback that panics with payload `7`, a compile
issuing one include request panics with exactly that payload. -/
theorem panic_propagation_spec_witness :
    compileEntry (P := Nat) (fun _ _ _ _ => .panics 7) [⟨0, [], [], 0⟩]
      ⟨0, 0, 0, [], []⟩ true none = (.panicked (.user 7), none) := by
  exact (panic_propagation_spec (fun _ _ _ _ => .panics 7) [⟨0, [], [], 0⟩]
    ⟨0, 0, 0, [], []⟩ true none).2.2.1 (.user 7) rfl (by decide) (by decide)

/-- C5: the thread-local panic cell is reset at the start of every compile
entry point, before the native call: the outcome is independent of
whatever the cell held on entry, a panic is re-raised only if it was
captured during this very call, and when no callback panicked in this
call a stale payload is never re-raised. -/
theorem panic_storage_reset_spec {P : Type} (f : Callback P) (reqs : List IncludeRequest)
    (nres : NativeCompilationResult) (b : Bool) :
    (∀ st st', compileEntry f reqs nres b st = compileEntry f reqs nres b st') ∧
    (∀ st p, (compileEntry f reqs nres b st).1 = .panicked p → lastPanic f reqs = some p) ∧
    (lastPanic f reqs = none →
      ∀ st p, (compileEntry f reqs nres b st).1 ≠ .panicked p) := by
  have key : ∀ st p, (compileEntry f reqs nres b st).1 = .panicked p →
      lastPanic f reqs = some p := by
    intro st p hp
    cases hl : lastPanic f reqs with
    | some q =>
      have hst : (runResolvers f reqs (none : Option (Payload P))).2 = some q := by
        rw [runResolvers_state]
        simp [hl]
      rcases hh : handle_compilation_result nres b with a | e | m
      · simp [compileEntry, propagate_panic, compileBody, hst, hh] at hp
        rw [hp]
      · simp [compileEntry, propagate_panic, compileBody, hst, hh] at hp
        rw [hp]
      · simp [compileEntry, propagate_panic, compileBody, hst, hh] at hp
    | none =>
      have hst : (runResolvers f reqs (none : Option (Payload P))).2 = none := by
        rw [runResolvers_state]
        simp [hl]
      rcases hh : handle_compilation_result nres b with a | e | m <;>
        simp [compileEntry, propagate_panic, compileBody, hst, hh] at hp
  refine ⟨fun st st' => rfl, key, ?_⟩
  intro hl st p hp
  have h2 := key st p hp
  rw [h2] at hl
  exact absurd hl (by simp)

/-- C5 witness: a stale payload left in the cell is discarded: a compile
with no panicking callback behaves identically whether the cell held a
payload or not, and never re-raises the stale payload. -/
theorem panic_storage_reset_spec_witness :
    compileEntry (P := Nat) (fun _ _ _ _ => .err []) [] ⟨0, 0, 0, [], []⟩ true
        (some (.user 3)) =
      compileEntry (fun _ _ _ _ => .err []) [] ⟨0, 0, 0, [], []⟩ true none ∧
    (compileEntry (P := Nat) (fun _ _ _ _ => .err []) [] ⟨0, 0, 0, [], []⟩ true
        (some (.user 3))).1 ≠ .panicked (.user 3) := by
  constructor
  · exact (panic_storage_reset_spec (fun _ _ _ _ => .err []) [] ⟨0, 0, 0, [], []⟩ true).1
      (some (.user 3)) none
  · exact (panic_storage_reset_spec (fun _ _ _ _ => .err []) [] ⟨0, 0, 0, [], []⟩ true).2.2
      rfl (some (.user 3)) (.user 3)

/-- The native call made by `add_macro_definition`: either name and value
buffers with their byte lengths, or a null value pointer with length 0. -/
inductive MacroDefCall where
  | withValue (name : List Nat) (name_length : Nat) (value : List Nat) (value_length : Nat)
  | withNullValue (name : List Nat) (name_length : Nat)
  deriving DecidableEq, Repr

/-- Model of `CompileOptions::add_macro_definition`: `CString` conversion
of the name (and of the value when present) `expect`-panics on an
embedded NUL; otherwise exactly one native call is made, passing a null
value pointer when no value was supplied. -/
def add_macro_definition (name : List Nat) (value : Option (List Nat)) :
    Except (List Nat) MacroDefCall :=
  if containsNul name then .error (strBytes "cannot convert name to c string")
  else
    match value with
    | some v =>
      if containsNul v then .error (strBytes "cannot convert value to c string")
      else .ok (.withValue name name.length v v.length)
    | none => .ok (.withNullValue name name.length)

theorem compile_into_spirv_nul {P : Type} (source file entry : List Nat)
    (st : Option (Payload P))
    (h : containsNul source = true ∨ containsNul file = true ∨ containsNul entry = true) :
    ∃ m, ∀ (f : Callback P) (reqs : List IncludeRequest) (nres : NativeCompilationResult),
      compile_into_spirv source file entry f reqs nres st = (.fatal m, st) := by
  by_cases hs : containsNul source = true
  · exact ⟨strBytes "cannot convert source_text to c string",
      fun f reqs nres => by simp [compile_into_spirv, hs]⟩
  · have hs' : containsNul source = false := by simpa using hs
    by_cases hf : containsNul file = true
    · exact ⟨strBytes "cannot convert input_file_name to c string",
        fun f reqs nres => by simp [compile_into_spirv, hs', hf]⟩
    · have hf' : containsNul file = false := by simpa using hf
      have he : containsNul entry = true := by
        rcases h with h | h | h
        · exact absurd h hs
        · exact absurd h hf
        · exact h
      exact ⟨strBytes "cannot convert entry_point_name to c string",
        fun f reqs nres => by simp [compile_into_spirv, hs', hf', he]⟩

theorem compile_into_spirv_assembly_nul {P : Type} (source file entry : List Nat)
    (st : Option (Payload P))
    (h : containsNul source = true ∨ containsNul file = true ∨ containsNul entry = true) :
    ∃ m, ∀ (f : Callback P) (reqs : List IncludeRequest) (nres : NativeCompilationResult),
      compile_into_spirv_assembly source file entry f reqs nres st = (.fatal m, st) := by
  by_cases hs : containsNul source = true
  · exact ⟨strBytes "cannot convert source_text to c string",
      fun f reqs nres => by simp [compile_into_spirv_assembly, hs]⟩
  · have hs' : containsNul source = false := by simpa using hs
    by_cases hf : containsNul file = true
    · exact ⟨strBytes "cannot convert input_file_name to c string",
        fun f reqs nres => by simp [compile_into_spirv_assembly, hs', hf]⟩
    · have hf' : containsNul file = false := by simpa using hf
      have he : containsNul entry = true := by
        rcases h with h | h | h
        · exact absurd h hs
        · exact absurd h hf
        · exact h
      exact ⟨strBytes "cannot convert entry_point_name to c string",
        fun f reqs nres => by simp [compile_into_spirv_assembly, hs', hf', he]⟩

theorem preprocess_nul {P : Type} (source file entry : List Nat)
    (st : Option (Payload P))
    (h : containsNul source = true ∨ containsNul file = true ∨ containsNul entry = true) :
    ∃ m, ∀ (f : Callback P) (reqs : List IncludeRequest) (nres : NativeCompilationResult),
      preprocess source file entry f reqs nres st = (.fatal m, st) := by
  by_cases hs : containsNul source = true
  · exact ⟨strBytes "cannot convert source to c string",
      fun f reqs nres => by simp [preprocess, hs]⟩
  · have hs' : containsNul source = false := by simpa using hs
    by_cases hf : containsNul file = true
    · exact ⟨strBytes "cannot convert input_file_name to c string",
        fun f reqs nres => by simp [preprocess, hs', hf]⟩
    · have hf' : containsNul file = false := by simpa using hf
      have he : containsNul entry = true := by
        rcases h with h | h | h
        · exact absurd h hs
        · exact absurd h hf
        · exact h
      exact ⟨strBytes "cannot convert entry_point_name to c string",
        fun f reqs nres => by simp [preprocess, hs', hf', he]⟩

/-- C8: every compile-family operation and the string-taking macro setter
panic before any native entry point is invoked when a supplied string
contains an embedded NUL: the result is a panic whose message does not
depend on the callback, the requests or the native result (so the native
call never happens), never a recoverable `Err`. -/
theorem nul_byte_panic_spec {P : Type} (source file entry asm_text name : List Nat)
    (value : Option (List Nat)) (st : Option (Payload P)) :
    ((containsNul source = true ∨ containsNul file = true ∨ containsNul entry = true) →
      (∃ m, ∀ (f : Callback P) (reqs : List IncludeRequest) (nres : NativeCompilationResult),
        compile_into_spirv source file entry f reqs nres st = (.fatal m, st)) ∧
      (∃ m, ∀ (f : Callback P) (reqs : List IncludeRequest) (nres : NativeCompilationResult),
        compile_into_spirv_assembly source file entry f reqs nres st = (.fatal m, st)) ∧
      (∃ m, ∀ (f : Callback P) (reqs : List IncludeRequest) (nres : NativeCompilationResult),
        preprocess source file entry f reqs nres st = (.fatal m, st))) ∧
    (containsNul asm_text = true →
      ∃ m, ∀ (f : Callback P) (reqs : List IncludeRequest) (nres : NativeCompilationResult),
        assemble asm_text f reqs nres st = (.fatal m, st)) ∧
    ((containsNul name = true ∨ (∃ v, value = some v ∧ containsNul v = true)) →
      ∃ m, add_macro_definition name value = .error m) := by
  refine ⟨?_, ?_, ?_⟩
  · intro h
    exact ⟨compile_into_spirv_nul source file entry st h,
      compile_into_spirv_assembly_nul source file entry st h,
      preprocess_nul source file entry st h⟩
  · intro h
    exact ⟨strBytes "cannot convert source_assembly to c string",
      fun f reqs nres => by simp [assemble, h]⟩
  · intro h
    by_cases hn : containsNul name = true
    · exact ⟨strBytes "cannot convert name to c string",
        by simp [add_macro_definition, hn]⟩
    · have hn' : containsNul name = false := by simpa using hn
      obtain ⟨v, rfl, hv⟩ : ∃ v, value = some v ∧ containsNul v = true := by
        rcases h with h | h
        · exact absurd h hn
        · exact h
      exact ⟨strBytes "cannot convert value to c string",
        by simp [add_macro_definition, hn', hv]⟩

/-- C8 witness: a source text containing a NUL byte makes
`compile_into_spirv` panic without consulting the native layer, and a
macro value containing a NUL makes `add_macro_definition` panic. -/
theorem nul_byte_panic_spec_witness :
    ((∃ m, ∀ (f : Callback Nat) (reqs : List IncludeRequest) (nres : NativeCompilationResult),
        compile_into_spirv [65, 0, 66] [] [] f reqs nres none = (.fatal m, none)) ∧
      (∃ m, ∀ (f : Callback Nat) (reqs : List IncludeRequest) (nres : NativeCompilationResult),
        compile_into_spirv_assembly [65, 0, 66] [] [] f reqs nres none = (.fatal m, none)) ∧
      (∃ m, ∀ (f : Callback Nat) (reqs : List IncludeRequest) (nres : NativeCompilationResult),
        preprocess [65, 0, 66] [] [] f reqs nres none = (.fatal m, none))) ∧
    (∃ m, add_macro_definition [68] (some [0]) = .error m) := by
  constructor
  · exact (nul_byte_panic_spec (P := Nat) [65, 0, 66] [] [] [] [68] (some [0]) none).1
      (Or.inl (by decide))
  · exact (nul_byte_panic_spec (P := Nat) [65, 0, 66] [] [] [] [68] (some [0]) none).2.2
      (Or.inr ⟨[0], rfl, by decide⟩)

/-- Model of `CompileOptions`: the native options handle (abstracted to an
identifier of its native state) plus the optionally stored boxed include
callback. -/
structure CompileOptions (P : Type) where
  raw : Nat
  include_callback_fn : Option (Callback P)

/-- Model of `CompileOptions::clone`: the native deep copy
`shaderc_compile_options_clone` (which may fail, returning null) is
abstracted as `native_clone`; on success the new wrapper is built with no
stored include callback. -/
def clone {P : Type} (native_clone : Nat → Option Nat) (o : CompileOptions P) :
    Option (CompileOptions P) :=
  match native_clone o.raw with
  | none => none
  | some p => some { raw := p, include_callback_fn := none }

/-- Model of `CompileOptions::set_include_callback`: boxes the callback
and stores it in the options value; the native side receives the two
trampolines and the user-data pointer, leaving the modelled state
otherwise unchanged. -/
def set_include_callback {P : Type} (o : CompileOptions P) (f : Callback P) :
    CompileOptions P :=
  { o with include_callback_fn := some f }

/-- C9: cloning options on which an include callback was registered
yields, whenever the native clone succeeds, an options value whose stored
include-callback capability is absent: the boxed callback is never
duplicated into the clone. -/
theorem clone_drops_include_callback {P : Type} (native_clone : Nat → Option Nat)
    (o : CompileOptions P) (f : Callback P) (c : CompileOptions P)
    (h : clone native_clone (set_include_callback o f) = some c) :
    c.include_callback_fn = none := by
  unfold clone at h
  cases hn : native_clone (set_include_callback o f).raw with
  | none => rw [hn] at h; exact absurd h (by simp)
  | some p =>
    rw [hn] at h
    obtain rfl := Option.some.inj h
    rfl

/-- C9 witness: with a succeeding native clone, the clone of options
carrying a callback stores no callback. -/
theorem clone_drops_include_callback_witness :
    (CompileOptions.mk (P := Nat) 0 none).include_callback_fn = none :=
  clone_drops_include_callback some ⟨0, none⟩ (fun _ _ _ _ => .err []) ⟨0, none⟩ rfl

end Shaderc
